import Mathlib

/-!
# IgH EtherCAT master: datagram types and states, datagram construction,
# domain process-data layout, and the `foe_read` command

Shallow embedding of

* `master/datagram.h`: the enumerations `ec_datagram_type_t` and
  `ec_datagram_state_t`, the record `ec_datagram_t`, and the declared
  operations `ec_datagram_init`, `ec_datagram_prealloc`, `ec_datagram_nprd`,
  ..., `ec_datagram_lrw` (only declared there; their bodies follow the
  specification and are marked as such);
* `lib/domain.h`: the record `ec_domain` (the append / finalize operations
  are not in the sources and follow the specification, marked as such);
* `tool/CommandFoeRead.cpp`: `CommandFoeRead::execute`, with the collaborators
  it calls (master device, slave selection, FoE ioctl) taken as parameters.

Machine integers are natural numbers; bytes are natural numbers below 256.
-/

namespace EtherCAT

/-! ## master/datagram.h -/

/-- EtherCAT datagram type (`ec_datagram_type_t`, datagram.h lines 59-68). -/
inductive ec_datagram_type_t where
  | EC_DATAGRAM_NONE
  | EC_DATAGRAM_APRD
  | EC_DATAGRAM_APWR
  | EC_DATAGRAM_NPRD
  | EC_DATAGRAM_NPWR
  | EC_DATAGRAM_BRD
  | EC_DATAGRAM_BWR
  | EC_DATAGRAM_LRW
  deriving DecidableEq, Repr

namespace ec_datagram_type_t

/-- The enumerator values written in the header: the code of the type on the wire. -/
def code : ec_datagram_type_t → Nat
  | EC_DATAGRAM_NONE => 0x00
  | EC_DATAGRAM_APRD => 0x01
  | EC_DATAGRAM_APWR => 0x02
  | EC_DATAGRAM_NPRD => 0x04
  | EC_DATAGRAM_NPWR => 0x05
  | EC_DATAGRAM_BRD => 0x07
  | EC_DATAGRAM_BWR => 0x08
  | EC_DATAGRAM_LRW => 0x0C

/-- The enumerators in declaration order. -/
def members : List ec_datagram_type_t :=
  [EC_DATAGRAM_NONE, EC_DATAGRAM_APRD, EC_DATAGRAM_APWR, EC_DATAGRAM_NPRD,
   EC_DATAGRAM_NPWR, EC_DATAGRAM_BRD, EC_DATAGRAM_BWR, EC_DATAGRAM_LRW]

end ec_datagram_type_t

/-- EtherCAT datagram state (`ec_datagram_state_t`, datagram.h lines 74-81). -/
inductive ec_datagram_state_t where
  | EC_DATAGRAM_INIT
  | EC_DATAGRAM_QUEUED
  | EC_DATAGRAM_SENT
  | EC_DATAGRAM_RECEIVED
  | EC_DATAGRAM_TIMED_OUT
  | EC_DATAGRAM_ERROR
  deriving DecidableEq, Repr

/-- The datagram states as the specification names them (section 4.1). -/
inductive spec_datagram_state where
  | init
  | queued
  | sent
  | received
  | timed_out
  | error
  deriving DecidableEq, Repr

namespace ec_datagram_state_t

/-- The enumerator values: the header gives none, so C numbers them 0, 1, 2, ...
in declaration order. -/
def code : ec_datagram_state_t → Nat
  | EC_DATAGRAM_INIT => 0
  | EC_DATAGRAM_QUEUED => 1
  | EC_DATAGRAM_SENT => 2
  | EC_DATAGRAM_RECEIVED => 3
  | EC_DATAGRAM_TIMED_OUT => 4
  | EC_DATAGRAM_ERROR => 5

/-- The enumerators in declaration order. -/
def members : List ec_datagram_state_t :=
  [EC_DATAGRAM_INIT, EC_DATAGRAM_QUEUED, EC_DATAGRAM_SENT, EC_DATAGRAM_RECEIVED,
   EC_DATAGRAM_TIMED_OUT, EC_DATAGRAM_ERROR]

/-- The specification state each enumerator stands for, read off the header comments
("Initial state of a new datagram", "Queued for sending", "Sent", "Received",
"Timed out", "Error while sending/receiving"). -/
def toSpec : ec_datagram_state_t → spec_datagram_state
  | EC_DATAGRAM_INIT => .init
  | EC_DATAGRAM_QUEUED => .queued
  | EC_DATAGRAM_SENT => .sent
  | EC_DATAGRAM_RECEIVED => .received
  | EC_DATAGRAM_TIMED_OUT => .timed_out
  | EC_DATAGRAM_ERROR => .error

/-- The enumerator that stands for a specification state. -/
def ofSpec : spec_datagram_state → ec_datagram_state_t
  | .init => EC_DATAGRAM_INIT
  | .queued => EC_DATAGRAM_QUEUED
  | .sent => EC_DATAGRAM_SENT
  | .received => EC_DATAGRAM_RECEIVED
  | .timed_out => EC_DATAGRAM_TIMED_OUT
  | .error => EC_DATAGRAM_ERROR

end ec_datagram_state_t

/-- Modelled from the spec: `ec_origin_t` is declared in `globals.h`, which is not among the
sources. The specification describes it as the tag "distinguishing externally-owned vs.
internally-allocated memory". -/
inductive ec_origin_t where
  | EC_ORIG_INTERNAL
  | EC_ORIG_EXTERNAL
  deriving DecidableEq, Repr

/-- EtherCAT datagram (`ec_datagram_t`, datagram.h lines 87-108). The three `list_head`
members (`list`, `queue`, `sent`) are intrusive links; membership is represented by the
lists that hold the datagram. `data` is the memory `data` points to, `address` the bytes of
the array `address[EC_ADDR_LEN]`. -/
structure ec_datagram_t where
  type : ec_datagram_type_t
  address : List Nat
  data : List Nat
  data_origin : ec_origin_t
  mem_size : Nat
  data_size : Nat
  index : Nat
  working_counter : Nat
  state : ec_datagram_state_t
  cycles_sent : Nat
  jiffies_sent : Nat
  cycles_received : Nat
  jiffies_received : Nat
  skip_count : Nat
  stats_output_jiffies : Nat
  name : String
  deriving DecidableEq, Repr

/-- The failures the specification names for the datagram and domain operations. -/
inductive ec_error_t where
  | AllocationError
  | InvalidSizeError
  | AlreadyFinalizedError
  | AppendAfterFinalize
  deriving DecidableEq, Repr

/-- What the datagram operations need from their surroundings: whether memory of a given
size can be secured, and the protocol-defined maximum frame payload. -/
structure ec_platform_t where
  can_alloc : Nat → Bool
  max_data_size : Nat

/-- Modelled from the spec: how a constructor stores a 16-bit address component in the
"fixed-width recipient descriptor" (the store macros are not among the sources); the model
stores the low byte first. -/
def ec_write_u16 (v : Nat) : List Nat :=
  [v % 256, v / 256 % 256]

/-- Modelled from the spec: how the logical constructor stores its 32-bit start address in
the "fixed-width recipient descriptor" (the store macros are not among the sources); the
model stores the low byte first. -/
def ec_write_u32 (v : Nat) : List Nat :=
  [v % 256, v / 256 % 256, v / 65536 % 256, v / 16777216 % 256]

/-- Modelled from the spec: the body of `ec_datagram_init` (declared at datagram.h line 112,
defined in `datagram.c`, which is not among the sources). A new datagram is in the state
`init` (header comment: "Initial state of a new datagram"), has the dummy type, and owns no
payload memory yet. -/
def ec_datagram_init : ec_datagram_t where
  type := .EC_DATAGRAM_NONE
  address := [0, 0, 0, 0]
  data := []
  data_origin := .EC_ORIG_INTERNAL
  mem_size := 0
  data_size := 0
  index := 0
  working_counter := 0
  state := .EC_DATAGRAM_INIT
  cycles_sent := 0
  jiffies_sent := 0
  cycles_received := 0
  jiffies_received := 0
  skip_count := 0
  stats_output_jiffies := 0
  name := ""

/-- Modelled from the spec: the body of `ec_datagram_prealloc` (declared at datagram.h line
114, defined in `datagram.c`, which is not among the sources). "Allocates (or validates
pre-existing) buffer capacity ≥ requested size"; "fails with `AllocationError` if memory
cannot be secured". Memory of external origin is not the datagram's to replace. -/
def ec_datagram_prealloc (p : ec_platform_t) (datagram : ec_datagram_t) (size : Nat) :
    Except ec_error_t ec_datagram_t :=
  if size ≤ datagram.mem_size then
    .ok datagram
  else
    match datagram.data_origin with
    | .EC_ORIG_EXTERNAL => .error .AllocationError
    | .EC_ORIG_INTERNAL =>
      if p.can_alloc size then
        .ok { datagram with data := List.replicate size 0, mem_size := size }
      else
        .error .AllocationError

/-- Modelled from the spec: the part the seven typed constructors share (their bodies are in
`datagram.c`, which is not among the sources). "Allocates (or validates pre-existing) buffer
capacity ≥ requested size, sets `type` and `address` accordingly, sets `state = init`. Fails
with `AllocationError` if memory cannot be secured, or `InvalidSizeError` if the requested
size exceeds a protocol-defined maximum frame payload." -/
def ec_datagram_setup (p : ec_platform_t) (datagram : ec_datagram_t)
    (type : ec_datagram_type_t) (address : List Nat) (data_size : Nat) :
    Except ec_error_t ec_datagram_t :=
  if p.max_data_size < data_size then
    .error .InvalidSizeError
  else
    match ec_datagram_prealloc p datagram data_size with
    | .error e => .error e
    | .ok d =>
      .ok { d with type := type, address := address, data_size := data_size,
                   state := .EC_DATAGRAM_INIT }

/-- Modelled from the spec: `ec_datagram_nprd(datagram, node_address, offset, data_size)`
(datagram.h line 116), node-addressed physical read. -/
def ec_datagram_nprd (p : ec_platform_t) (datagram : ec_datagram_t)
    (node_address offset data_size : Nat) : Except ec_error_t ec_datagram_t :=
  ec_datagram_setup p datagram .EC_DATAGRAM_NPRD
    (ec_write_u16 node_address ++ ec_write_u16 offset) data_size

/-- Modelled from the spec: `ec_datagram_npwr(datagram, node_address, offset, data_size)`
(datagram.h line 117), node-addressed physical write. -/
def ec_datagram_npwr (p : ec_platform_t) (datagram : ec_datagram_t)
    (node_address offset data_size : Nat) : Except ec_error_t ec_datagram_t :=
  ec_datagram_setup p datagram .EC_DATAGRAM_NPWR
    (ec_write_u16 node_address ++ ec_write_u16 offset) data_size

/-- Modelled from the spec: `ec_datagram_aprd(datagram, ring_position, offset, data_size)`
(datagram.h line 118), auto-increment physical read. -/
def ec_datagram_aprd (p : ec_platform_t) (datagram : ec_datagram_t)
    (ring_position offset data_size : Nat) : Except ec_error_t ec_datagram_t :=
  ec_datagram_setup p datagram .EC_DATAGRAM_APRD
    (ec_write_u16 ring_position ++ ec_write_u16 offset) data_size

/-- Modelled from the spec: `ec_datagram_apwr(datagram, ring_position, offset, data_size)`
(datagram.h line 119), auto-increment physical write. -/
def ec_datagram_apwr (p : ec_platform_t) (datagram : ec_datagram_t)
    (ring_position offset data_size : Nat) : Except ec_error_t ec_datagram_t :=
  ec_datagram_setup p datagram .EC_DATAGRAM_APWR
    (ec_write_u16 ring_position ++ ec_write_u16 offset) data_size

/-- Modelled from the spec: `ec_datagram_brd(datagram, offset, data_size)` (datagram.h line
120), broadcast read. -/
def ec_datagram_brd (p : ec_platform_t) (datagram : ec_datagram_t)
    (offset data_size : Nat) : Except ec_error_t ec_datagram_t :=
  ec_datagram_setup p datagram .EC_DATAGRAM_BRD
    (ec_write_u16 0 ++ ec_write_u16 offset) data_size

/-- Modelled from the spec: `ec_datagram_bwr(datagram, offset, data_size)` (datagram.h line
121), broadcast write. -/
def ec_datagram_bwr (p : ec_platform_t) (datagram : ec_datagram_t)
    (offset data_size : Nat) : Except ec_error_t ec_datagram_t :=
  ec_datagram_setup p datagram .EC_DATAGRAM_BWR
    (ec_write_u16 0 ++ ec_write_u16 offset) data_size

/-- Modelled from the spec: `ec_datagram_lrw(datagram, offset, data_size, external_memory)`
(datagram.h line 122), logical read/write. The fourth argument is the caller's memory, or
nothing (a null pointer); supplied memory becomes the payload memory, of external origin, and
its capacity is what the constructor validates. -/
def ec_datagram_lrw (p : ec_platform_t) (datagram : ec_datagram_t)
    (offset data_size : Nat) (external_memory : Option (List Nat)) :
    Except ec_error_t ec_datagram_t :=
  match external_memory with
  | none =>
    ec_datagram_setup p datagram .EC_DATAGRAM_LRW (ec_write_u32 offset) data_size
  | some mem =>
    ec_datagram_setup p
      { datagram with data := mem, data_origin := .EC_ORIG_EXTERNAL, mem_size := mem.length }
      .EC_DATAGRAM_LRW (ec_write_u32 offset) data_size

/-- The postcondition of a typed constructor: the payload size does not exceed the capacity,
it is the requested size, the type is the constructor's type, and the state is
`EC_DATAGRAM_INIT`. -/
def ec_datagram_constructed (datagram : ec_datagram_t) (type : ec_datagram_type_t)
    (size : Nat) : Prop :=
  datagram.data_size ≤ datagram.mem_size
  ∧ datagram.data_size = size
  ∧ datagram.type = type
  ∧ datagram.state = .EC_DATAGRAM_INIT

/-- A platform on which every allocation succeeds, with the payload limit of an Ethernet
frame that carries one datagram. -/
def ec_platform_plenty : ec_platform_t where
  can_alloc := fun _ => true
  max_data_size := 1486

/-! ## lib/domain.h -/

/-- Modelled from the spec: the domain record. `index` and `process_data` are members of
`struct ec_domain` (lib/domain.h lines 27-32; its `next` and `master` members are links to
other objects). The operations on a domain are not among the sources; the specification
gives a domain an "ordered sequence of constituent Datagrams", a "planned aggregated-buffer
size" and a finalized layout, where each datagram is bound to a byte offset of the buffer. -/
structure ec_domain where
  index : Nat
  process_data : List Nat
  datagrams : List ec_datagram_t
  offsets : List Nat
  data_size : Nat
  finalized : Bool
  deriving DecidableEq, Repr

/-- Modelled from the spec: creation of a domain (not among the sources): no datagrams, no
buffer, not finalized. -/
def ec_domain_create (index : Nat) : ec_domain where
  index := index
  process_data := []
  datagrams := []
  offsets := []
  data_size := 0
  finalized := false

/-- Modelled from the spec: `append(datagram)` (not among the sources): "allowed only before
finalization; adds the datagram to the ordered list and extends the planned aggregated-buffer
size by the datagram's payload size." -/
def ec_domain_append (domain : ec_domain) (datagram : ec_datagram_t) :
    Except ec_error_t ec_domain :=
  if domain.finalized then
    .error .AppendAfterFinalize
  else
    .ok { domain with datagrams := domain.datagrams ++ [datagram],
                      data_size := domain.data_size + datagram.data_size }

/-- Appending a sequence of datagrams, one call of `ec_domain_append` each, in order. -/
def ec_domain_append_all (domain : ec_domain) :
    List ec_datagram_t → Except ec_error_t ec_domain
  | [] => .ok domain
  | datagram :: rest =>
    match ec_domain_append domain datagram with
    | .error e => .error e
    | .ok d => ec_domain_append_all d rest

/-- Modelled from the spec: the loop of `finalize()` (not among the sources): it walks the
datagrams in append order with a running byte offset ("cumulative sum of prior sizes") and
rebinds each datagram's payload to the sub-range of the buffer at that offset. -/
def ec_domain_bind (buffer : List Nat) : Nat → List ec_datagram_t → List (Nat × ec_datagram_t)
  | _, [] => []
  | offset, datagram :: rest =>
    (offset, { datagram with data := (buffer.drop offset).take datagram.data_size,
                             data_origin := .EC_ORIG_EXTERNAL,
                             mem_size := datagram.data_size })
      :: ec_domain_bind buffer (offset + datagram.data_size) rest

/-- The finalized domain over a given buffer. -/
def ec_domain_bound (domain : ec_domain) (buffer : List Nat) : ec_domain :=
  { domain with process_data := buffer,
                offsets := (ec_domain_bind buffer 0 domain.datagrams).map Prod.fst,
                datagrams := (ec_domain_bind buffer 0 domain.datagrams).map Prod.snd,
                finalized := true }

/-- Modelled from the spec: `finalize()` (not among the sources): "computes each datagram's
byte offset into the aggregated buffer (cumulative sum of prior sizes, in append order),
allocates (or binds to externally supplied memory) the contiguous buffer, and rebinds each
constituent datagram's payload pointer to the corresponding sub-range (zero-copy). Fails with
`AlreadyFinalizedError` if called twice." The buffer has the planned size; memory that cannot
be secured, or supplied memory that is too small, is an allocation error. -/
def ec_domain_finalize (p : ec_platform_t) (domain : ec_domain)
    (external_memory : Option (List Nat)) : Except ec_error_t ec_domain :=
  if domain.finalized then
    .error .AlreadyFinalizedError
  else
    match external_memory with
    | some mem =>
      if mem.length < domain.data_size then
        .error .AllocationError
      else
        .ok (ec_domain_bound domain (mem.take domain.data_size))
    | none =>
      if p.can_alloc domain.data_size then
        .ok (ec_domain_bound domain (List.replicate domain.data_size 0))
      else
        .error .AllocationError

/-- The scenario "construct a domain, append the datagrams in order, finalize". -/
def ec_domain_configure (p : ec_platform_t) (index : Nat) (datagrams : List ec_datagram_t)
    (external_memory : Option (List Nat)) : Except ec_error_t ec_domain :=
  match ec_domain_append_all (ec_domain_create index) datagrams with
  | .error e => .error e
  | .ok d => ec_domain_finalize p d external_memory

/-- The byte range `[first, last)` of the buffer that the `k`-th datagram is bound to. -/
def ec_domain_range (domain : ec_domain) (k : Nat) : Option (Nat × Nat) :=
  match domain.offsets[k]?, domain.datagrams[k]? with
  | some offset, some datagram => some (offset, offset + datagram.data_size)
  | _, _ => none

/-- The payload sizes of a sequence of datagrams. -/
def ec_payload_sizes (datagrams : List ec_datagram_t) : List Nat :=
  datagrams.map ec_datagram_t.data_size

/-- The sum `s_1 + ... + s_k` of the payload sizes of the first `k` datagrams. -/
def ec_size_before (datagrams : List ec_datagram_t) (k : Nat) : Nat :=
  ((ec_payload_sizes datagrams).take k).sum

/-- Three datagrams with payload sizes 4, 2 and 6, as the logical constructor leaves them. -/
def ec_scenario_datagrams : List ec_datagram_t :=
  [{ ec_datagram_init with type := .EC_DATAGRAM_LRW, data := [0, 0, 0, 0],
                           mem_size := 4, data_size := 4 },
   { ec_datagram_init with type := .EC_DATAGRAM_LRW, data := [0, 0],
                           mem_size := 2, data_size := 2 },
   { ec_datagram_init with type := .EC_DATAGRAM_LRW, data := [0, 0, 0, 0, 0, 0],
                           mem_size := 6, data_size := 6 }]

/-! ## tool/CommandFoeRead.cpp -/

/-- Slave record (`ec_ioctl_slave_t`, declared in `master/ioctl.h`, not among the sources):
the member `execute` reads. -/
structure ec_ioctl_slave_t where
  position : Nat
  deriving DecidableEq, Repr

/-- FoE request (`ec_ioctl_slave_foe_t`, declared in `master/ioctl.h`, not among the sources):
the members `execute` writes before the call of `readFoe`; `file_name` is a character
array, here the characters that `strncpy` copies into it. -/
structure ec_ioctl_slave_foe_t where
  slave_position : Nat
  offset : Nat
  buffer_size : Nat
  file_name : List Char
  deriving DecidableEq, Repr

/-- An exception thrown by a collaborator of the command (`MasterDeviceException` and the
like), with its message. -/
structure MasterDeviceException where
  what : String
  deriving DecidableEq, Repr

/-- What `m.readFoe(&data)` does to `data`: it returns with `data_size` and the buffer
filled, or it throws with `result` and `error_code` set. -/
inductive FoeReply where
  | done (data_size : Nat) (buffer : List Nat)
  | thrown (e : MasterDeviceException) (result : Nat) (error_code : Nat)
  deriving DecidableEq, Repr

/-- The ways `execute` ends by an exception: the three `throw...` helpers of the command
framework it calls, the rethrown `MasterDeviceException`, and an exception that comes out of
a collaborator (`getSingleMasterIndex`, `MasterDevice::open`, `selectedSlaves`). -/
inductive CommandError where
  | InvalidUsageException (message : String)
  | SingleSlaveRequired (size : Nat)
  | CommandException (message : String)
  | Rethrown (e : MasterDeviceException)
  | Collaborator (e : MasterDeviceException)
  deriving DecidableEq, Repr

/-- The surroundings of one run of the command: the command-line options, the collaborators
whose code is not in `CommandFoeRead.cpp`, and the constants of `foe.h` and `ioctl.h`. -/
structure CommandEnv where
  output_file : String
  getSingleMasterIndex : Except MasterDeviceException Nat
  open_master : Nat → Except MasterDeviceException Unit
  selectedSlaves : Except MasterDeviceException (List ec_ioctl_slave_t)
  readFoe : ec_ioctl_slave_foe_t → FoeReply
  FOE_OPCODE_ERROR : Nat
  errorText : Nat → String
  resultText : Nat → String
  file_name_size : Nat

/-- What a run of the command did that can be seen from outside: the master devices it asked
to open, the FoE read requests it issued, the bytes it put on standard output, and the local
files it wrote (name and content). -/
structure CommandEffects where
  opened : List Nat
  foe_reads : List ec_ioctl_slave_foe_t
  stdout : List Nat
  files : List (String × List Nat)
  deriving DecidableEq, Repr

/-- The name given to the command by the constructor (CommandFoeRead.cpp line 35). -/
def getName : String := "foe_read"

/-- The stream output `setw(8) << setfill('0') << hex << v` (line 109): `v` in lower-case
hexadecimal, padded on the left with zeros to eight characters. -/
def hex_setw8 (v : Nat) : String :=
  let digits := Nat.toDigits 16 v
  String.mk (List.replicate (8 - digits.length) '0' ++ digits)

/-- The output loop of lines 122-125: for `i` from 0 below `data_size`, the byte at
`buffer + i` goes to `cout`. Bytes past the modelled buffer content read as 0, and
`data_size` is below 2^32, so that the `unsigned int` counter does not wrap. -/
def print_buffer (buffer : List Nat) (data_size : Nat) : List Nat :=
  (List.range data_size).map (fun i => buffer.getD i 0)

/-- The message built in the `catch` block (lines 107-114) when `data.result` is non-zero. -/
def foe_error_message (env : CommandEnv) (result error_code : Nat) : String :=
  if result = env.FOE_OPCODE_ERROR then
    "FoE read aborted with error code 0x" ++ hex_setw8 error_code ++ ": "
      ++ env.errorText error_code
  else
    "Failed to write via FoE: " ++ env.resultText result

/-- The function `CommandFoeRead::execute` (CommandFoeRead.cpp lines 70-128): the effects of
the run and how it ends. The pattern `[slave]` is the case `slaves.size() == 1` with
`slave = &slaves.front()`; every other selection is the case `slaves.size() != 1`. The
`--output-file` option (`env.output_file`) is not read anywhere in the function. -/
def execute (env : CommandEnv) (args : List String) :
    CommandEffects × Except CommandError Unit :=
  if args.length ≠ 1 then
    (⟨[], [], [], []⟩,
      .error (.InvalidUsageException ("'" ++ getName ++ "' takes exactly one argument!")))
  else
    match env.getSingleMasterIndex with
    | .error e => (⟨[], [], [], []⟩, .error (.Collaborator e))
    | .ok index =>
      match env.open_master index with
      | .error e => (⟨[index], [], [], []⟩, .error (.Collaborator e))
      | .ok _ =>
        match env.selectedSlaves with
        | .error e => (⟨[index], [], [], []⟩, .error (.Collaborator e))
        | .ok slaves =>
          match slaves with
          | [slave] =>
            let data : ec_ioctl_slave_foe_t :=
              { slave_position := slave.position,
                offset := 0,
                buffer_size := 0x8800,
                file_name := (args.headD "").toList.take (env.file_name_size - 1) }
            match env.readFoe data with
            | .thrown e result error_code =>
              if result ≠ 0 then
                (⟨[index], [data], [], []⟩,
                  .error (.CommandException (foe_error_message env result error_code)))
              else
                (⟨[index], [data], [], []⟩, .error (.Rethrown e))
            | .done data_size buffer =>
              (⟨[index], [data], print_buffer buffer data_size, []⟩, .ok ())
          | _ => (⟨[index], [], [], []⟩, .error (.SingleSlaveRequired slaves.length))

/-- A run environment for examples: master 0 opens, the slave selection is `slaves`, the FoE
read returns the two bytes 0x41 0x42, and `--output-file` is `output_file`. -/
def foe_env_example (slaves : List ec_ioctl_slave_t) (output_file : String) : CommandEnv where
  output_file := output_file
  getSingleMasterIndex := .ok 0
  open_master := fun _ => .ok ()
  selectedSlaves := .ok slaves
  readFoe := fun _ => .done 2 [0x41, 0x42]
  FOE_OPCODE_ERROR := 5
  errorText := fun _ => "???"
  resultText := fun _ => "???"
  file_name_size := 32

/-! ## Theorems -/

/-! ### Datagram types and states -/

/-- C1: `ec_datagram_type_t` has exactly eight members (the list of members has eight
entries, none twice, and every value of the type is in it); their wire codes are
NONE = 0x00, APRD = 0x01, APWR = 0x02, NPRD = 0x04, NPWR = 0x05, BRD = 0x07, BWR = 0x08,
LRW = 0x0C; the map from type to code is injective; every code fits in one byte; and the set
of codes is exactly {0x00, 0x01, 0x02, 0x04, 0x05, 0x07, 0x08, 0x0C}. -/
theorem ec_datagram_type_wire_codes :
    ec_datagram_type_t.members.length = 8
    ∧ ec_datagram_type_t.members.Nodup
    ∧ (∀ t : ec_datagram_type_t, t ∈ ec_datagram_type_t.members)
    ∧ ec_datagram_type_t.members.map ec_datagram_type_t.code
        = [0x00, 0x01, 0x02, 0x04, 0x05, 0x07, 0x08, 0x0C]
    ∧ ec_datagram_type_t.EC_DATAGRAM_NONE.code = 0x00
    ∧ ec_datagram_type_t.EC_DATAGRAM_APRD.code = 0x01
    ∧ ec_datagram_type_t.EC_DATAGRAM_APWR.code = 0x02
    ∧ ec_datagram_type_t.EC_DATAGRAM_NPRD.code = 0x04
    ∧ ec_datagram_type_t.EC_DATAGRAM_NPWR.code = 0x05
    ∧ ec_datagram_type_t.EC_DATAGRAM_BRD.code = 0x07
    ∧ ec_datagram_type_t.EC_DATAGRAM_BWR.code = 0x08
    ∧ ec_datagram_type_t.EC_DATAGRAM_LRW.code = 0x0C
    ∧ Function.Injective ec_datagram_type_t.code
    ∧ (∀ t : ec_datagram_type_t, t.code < 256)
    ∧ Set.range ec_datagram_type_t.code
        = ({0x00, 0x01, 0x02, 0x04, 0x05, 0x07, 0x08, 0x0C} : Set Nat) := by
  refine ⟨rfl, by decide, ?_, rfl, rfl, rfl, rfl, rfl, rfl, rfl, rfl, rfl, ?_, ?_, ?_⟩
  · intro t
    cases t <;> decide
  · intro a b h
    cases a <;> cases b <;> first | rfl | (exact absurd h (by decide))
  · intro t
    cases t <;> decide
  · ext c
    constructor
    · rintro ⟨t, rfl⟩
      cases t <;> simp [ec_datagram_type_t.code]
    · intro h
      simp only [Set.mem_insert_iff, Set.mem_singleton_iff] at h
      rcases h with h | h | h | h | h | h | h | h
      · exact ⟨.EC_DATAGRAM_NONE, h.symm⟩
      · exact ⟨.EC_DATAGRAM_APRD, h.symm⟩
      · exact ⟨.EC_DATAGRAM_APWR, h.symm⟩
      · exact ⟨.EC_DATAGRAM_NPRD, h.symm⟩
      · exact ⟨.EC_DATAGRAM_NPWR, h.symm⟩
      · exact ⟨.EC_DATAGRAM_BRD, h.symm⟩
      · exact ⟨.EC_DATAGRAM_BWR, h.symm⟩
      · exact ⟨.EC_DATAGRAM_LRW, h.symm⟩

/-- C4: `ec_datagram_state_t` consists of exactly six pairwise-distinct states (the list of
members has six entries, none twice, every value of the type is in it, and their enumerator
values 0..5 are distinct); they correspond one-to-one to the specification's states init,
queued, sent, received, timed-out and error, in this order; and `EC_DATAGRAM_INIT` is the
initial state: it is the first enumerator (value 0) and the state of a datagram that
`ec_datagram_init` has just initialised. -/
theorem ec_datagram_state_six_states :
    ec_datagram_state_t.members.length = 6
    ∧ ec_datagram_state_t.members.Nodup
    ∧ (∀ s : ec_datagram_state_t, s ∈ ec_datagram_state_t.members)
    ∧ ec_datagram_state_t.members.map ec_datagram_state_t.code = [0, 1, 2, 3, 4, 5]
    ∧ Function.Injective ec_datagram_state_t.code
    ∧ ec_datagram_state_t.members.map ec_datagram_state_t.toSpec
        = [.init, .queued, .sent, .received, .timed_out, .error]
    ∧ Function.Bijective ec_datagram_state_t.toSpec
    ∧ (∀ s : ec_datagram_state_t, ec_datagram_state_t.ofSpec s.toSpec = s)
    ∧ (∀ s : spec_datagram_state, (ec_datagram_state_t.ofSpec s).toSpec = s)
    ∧ ec_datagram_state_t.EC_DATAGRAM_INIT.toSpec = .init
    ∧ ec_datagram_state_t.EC_DATAGRAM_INIT.code = 0
    ∧ ec_datagram_init.state = .EC_DATAGRAM_INIT := by
  have hleft : ∀ s : ec_datagram_state_t, ec_datagram_state_t.ofSpec s.toSpec = s := by
    intro s
    cases s <;> rfl
  have hright : ∀ s : spec_datagram_state, (ec_datagram_state_t.ofSpec s).toSpec = s := by
    intro s
    cases s <;> rfl
  refine ⟨rfl, by decide, ?_, rfl, ?_, rfl, ⟨?_, ?_⟩, hleft, hright, rfl, rfl, rfl⟩
  · intro s
    cases s <;> decide
  · intro a b h
    cases a <;> cases b <;> first | rfl | (exact absurd h (by decide))
  · intro a b h
    rw [← hleft a, ← hleft b, h]
  · intro s
    exact ⟨ec_datagram_state_t.ofSpec s, hright s⟩

/-! ### Datagram construction -/

/-- A successful `ec_datagram_prealloc` leaves a capacity of at least the requested size. -/
theorem ec_datagram_prealloc_capacity (p : ec_platform_t) (d r : ec_datagram_t) (size : Nat)
    (h : ec_datagram_prealloc p d size = .ok r) : size ≤ r.mem_size := by
  unfold ec_datagram_prealloc at h
  split at h
  · next hle =>
    cases h
    exact hle
  · split at h
    · cases h
    · split at h
      · cases h
        exact Nat.le_refl _
      · cases h

/-- A successful shared constructor part establishes the constructors' postcondition. -/
theorem ec_datagram_setup_constructed (p : ec_platform_t) (d r : ec_datagram_t)
    (type : ec_datagram_type_t) (address : List Nat) (size : Nat)
    (h : ec_datagram_setup p d type address size = .ok r) :
    ec_datagram_constructed r type size := by
  unfold ec_datagram_setup at h
  split at h
  · cases h
  · split at h
    · cases h
    · next q hq =>
      cases h
      exact ⟨ec_datagram_prealloc_capacity p d q size hq, rfl, rfl, rfl⟩

/-- C2: a datagram that `ec_datagram_init` has initialised has `data_size <= mem_size` and
state `EC_DATAGRAM_INIT`; and for every datagram (freshly initialised or used before), every
requested size and every successful call of one of the seven typed constructors
`ec_datagram_nprd`, `ec_datagram_npwr`, `ec_datagram_aprd`, `ec_datagram_apwr`,
`ec_datagram_brd`, `ec_datagram_bwr`, `ec_datagram_lrw`, the resulting datagram has
`data_size <= mem_size`, `data_size` equal to the requested size, the constructor's type, and
state `EC_DATAGRAM_INIT`. -/
theorem ec_datagram_constructors_establish (p : ec_platform_t) (d : ec_datagram_t)
    (size : Nat) :
    (ec_datagram_init.data_size ≤ ec_datagram_init.mem_size
      ∧ ec_datagram_init.state = .EC_DATAGRAM_INIT)
    ∧ (∀ node_address offset r, ec_datagram_nprd p d node_address offset size = .ok r →
        ec_datagram_constructed r .EC_DATAGRAM_NPRD size)
    ∧ (∀ node_address offset r, ec_datagram_npwr p d node_address offset size = .ok r →
        ec_datagram_constructed r .EC_DATAGRAM_NPWR size)
    ∧ (∀ ring_position offset r, ec_datagram_aprd p d ring_position offset size = .ok r →
        ec_datagram_constructed r .EC_DATAGRAM_APRD size)
    ∧ (∀ ring_position offset r, ec_datagram_apwr p d ring_position offset size = .ok r →
        ec_datagram_constructed r .EC_DATAGRAM_APWR size)
    ∧ (∀ offset r, ec_datagram_brd p d offset size = .ok r →
        ec_datagram_constructed r .EC_DATAGRAM_BRD size)
    ∧ (∀ offset r, ec_datagram_bwr p d offset size = .ok r →
        ec_datagram_constructed r .EC_DATAGRAM_BWR size)
    ∧ (∀ offset external_memory r,
        ec_datagram_lrw p d offset size external_memory = .ok r →
        ec_datagram_constructed r .EC_DATAGRAM_LRW size) := by
  refine ⟨⟨Nat.le_refl _, rfl⟩, ?_, ?_, ?_, ?_, ?_, ?_, ?_⟩
  · intro a o r h
    exact ec_datagram_setup_constructed p d r _ _ size h
  · intro a o r h
    exact ec_datagram_setup_constructed p d r _ _ size h
  · intro a o r h
    exact ec_datagram_setup_constructed p d r _ _ size h
  · intro a o r h
    exact ec_datagram_setup_constructed p d r _ _ size h
  · intro o r h
    exact ec_datagram_setup_constructed p d r _ _ size h
  · intro o r h
    exact ec_datagram_setup_constructed p d r _ _ size h
  · intro o ext r h
    cases ext with
    | none => exact ec_datagram_setup_constructed p d r _ _ size h
    | some mem => exact ec_datagram_setup_constructed p _ r _ _ size h

/-- Witness of C2: on a freshly initialised datagram each of the seven constructors, called
for two bytes (node-addressed ones for slave 3, offset 0x1000; the logical one once with no
memory and once with four bytes of caller memory), succeeds, and the result is as C2 says. -/
theorem ec_datagram_constructors_establish_witness :
    (∃ r, ec_datagram_nprd ec_platform_plenty ec_datagram_init 3 0x1000 2 = .ok r
      ∧ ec_datagram_constructed r .EC_DATAGRAM_NPRD 2)
    ∧ (∃ r, ec_datagram_npwr ec_platform_plenty ec_datagram_init 3 0x1000 2 = .ok r
      ∧ ec_datagram_constructed r .EC_DATAGRAM_NPWR 2)
    ∧ (∃ r, ec_datagram_aprd ec_platform_plenty ec_datagram_init 0 0x0130 2 = .ok r
      ∧ ec_datagram_constructed r .EC_DATAGRAM_APRD 2)
    ∧ (∃ r, ec_datagram_apwr ec_platform_plenty ec_datagram_init 0 0x0120 2 = .ok r
      ∧ ec_datagram_constructed r .EC_DATAGRAM_APWR 2)
    ∧ (∃ r, ec_datagram_brd ec_platform_plenty ec_datagram_init 0x0130 2 = .ok r
      ∧ ec_datagram_constructed r .EC_DATAGRAM_BRD 2)
    ∧ (∃ r, ec_datagram_bwr ec_platform_plenty ec_datagram_init 0x0120 2 = .ok r
      ∧ ec_datagram_constructed r .EC_DATAGRAM_BWR 2)
    ∧ (∃ r, ec_datagram_lrw ec_platform_plenty ec_datagram_init 0 2 none = .ok r
      ∧ ec_datagram_constructed r .EC_DATAGRAM_LRW 2)
    ∧ (∃ r, ec_datagram_lrw ec_platform_plenty ec_datagram_init 0 2 (some [1, 2, 3, 4]) = .ok r
      ∧ ec_datagram_constructed r .EC_DATAGRAM_LRW 2) :=
  have t := ec_datagram_constructors_establish ec_platform_plenty ec_datagram_init 2
  ⟨⟨_, rfl, t.2.1 3 0x1000 _ rfl⟩,
   ⟨_, rfl, t.2.2.1 3 0x1000 _ rfl⟩,
   ⟨_, rfl, t.2.2.2.1 0 0x0130 _ rfl⟩,
   ⟨_, rfl, t.2.2.2.2.1 0 0x0120 _ rfl⟩,
   ⟨_, rfl, t.2.2.2.2.2.1 0x0130 _ rfl⟩,
   ⟨_, rfl, t.2.2.2.2.2.2.1 0x0120 _ rfl⟩,
   ⟨_, rfl, t.2.2.2.2.2.2.2 0 none _ rfl⟩,
   ⟨_, rfl, t.2.2.2.2.2.2.2 0 (some [1, 2, 3, 4]) _ rfl⟩⟩

/-! ### Domain layout -/

/-- Appending to a domain that is not finalized succeeds; it extends the datagram list and
adds the payload sizes to the planned size. -/
theorem ec_domain_append_all_ok (ds : List ec_datagram_t) :
    ∀ dom : ec_domain, dom.finalized = false →
      ec_domain_append_all dom ds
        = .ok { dom with datagrams := dom.datagrams ++ ds,
                         data_size := dom.data_size + (ec_payload_sizes ds).sum } := by
  induction ds with
  | nil =>
    intro dom _
    simp [ec_domain_append_all, ec_payload_sizes]
  | cons d rest ih =>
    intro dom hdom
    have hstep : ec_domain_append dom d
        = .ok { dom with datagrams := dom.datagrams ++ [d],
                         data_size := dom.data_size + d.data_size } := by
      simp [ec_domain_append, hdom]
    simp only [ec_domain_append_all, hstep]
    rw [ih _ (show ({ dom with datagrams := dom.datagrams ++ [d],
                               data_size := dom.data_size + d.data_size } : ec_domain).finalized
                = false from hdom)]
    simp [ec_payload_sizes, Nat.add_assoc]

/-- The `k`-th entry the binding loop produces: the running offset is the start offset plus
the sizes of the datagrams before, and the payload is the sub-range of the buffer there. -/
theorem ec_domain_bind_getElem? (buffer : List Nat) (ds : List ec_datagram_t) :
    ∀ (offset k : Nat),
      (ec_domain_bind buffer offset ds)[k]?
        = (ds[k]?).map (fun d =>
            (offset + ec_size_before ds k,
              { d with data := (buffer.drop (offset + ec_size_before ds k)).take d.data_size,
                       data_origin := .EC_ORIG_EXTERNAL,
                       mem_size := d.data_size })) := by
  induction ds with
  | nil =>
    intro offset k
    simp [ec_domain_bind]
  | cons d rest ih =>
    intro offset k
    cases k with
    | zero => simp [ec_domain_bind, ec_size_before, ec_payload_sizes]
    | succ k =>
      simp only [ec_domain_bind, List.getElem?_cons_succ, ih]
      simp [ec_size_before, ec_payload_sizes, Nat.add_assoc]

/-- The sizes before the `k`-th datagram and its own size make the sizes before the next. -/
theorem ec_size_before_succ (ds : List ec_datagram_t) (k : Nat) (d : ec_datagram_t)
    (h : ds[k]? = some d) : ec_size_before ds (k + 1) = ec_size_before ds k + d.data_size := by
  induction ds generalizing k with
  | nil => simp at h
  | cons e rest ih =>
    cases k with
    | zero =>
      simp at h
      subst h
      simp [ec_size_before, ec_payload_sizes]
    | succ k =>
      simp only [List.getElem?_cons_succ] at h
      have := ih k h
      simp only [ec_size_before, ec_payload_sizes, List.map_cons, List.take_succ_cons,
        List.sum_cons] at this ⊢
      omega

/-- The sizes before any position do not exceed the sum of all sizes. -/
theorem ec_size_before_le (ds : List ec_datagram_t) (k : Nat) :
    ec_size_before ds k ≤ (ec_payload_sizes ds).sum := by
  induction ds generalizing k with
  | nil => simp [ec_size_before, ec_payload_sizes]
  | cons e rest ih =>
    cases k with
    | zero => simp [ec_size_before]
    | succ k =>
      have := ih k
      simp only [ec_size_before, ec_payload_sizes, List.map_cons, List.take_succ_cons,
        List.sum_cons] at this ⊢
      omega

/-- The layout of a domain bound to a buffer: the `k`-th datagram's range starts after the
sizes before it and ends after its own size, and its payload is that part of the buffer. -/
theorem ec_domain_bound_layout (dom : ec_domain) (buffer : List Nat) (k : Nat)
    (d : ec_datagram_t) (h : dom.datagrams[k]? = some d) :
    ec_domain_range (ec_domain_bound dom buffer) k
        = some (ec_size_before dom.datagrams k, ec_size_before dom.datagrams (k + 1))
    ∧ ((ec_domain_bound dom buffer).datagrams[k]?).map ec_datagram_t.data
        = some ((buffer.take (ec_size_before dom.datagrams (k + 1))).drop
            (ec_size_before dom.datagrams k)) := by
  have hsucc := ec_size_before_succ dom.datagrams k d h
  constructor
  · simp [ec_domain_range, ec_domain_bound, List.getElem?_map, ec_domain_bind_getElem?, h,
      hsucc]
  · simp [ec_domain_bound, List.getElem?_map, ec_domain_bind_getElem?, h, hsucc,
      List.take_drop]

/-- Creating a domain and appending the datagrams leaves the datagrams as the list and
their sizes' sum as the planned size; what remains of the scenario is the finalization. -/
theorem ec_domain_configure_eq (p : ec_platform_t) (index : Nat) (ds : List ec_datagram_t)
    (external_memory : Option (List Nat)) :
    ec_domain_configure p index ds external_memory
      = ec_domain_finalize p
          { ec_domain_create index with datagrams := ds,
                                        data_size := (ec_payload_sizes ds).sum }
          external_memory := by
  unfold ec_domain_configure
  rw [ec_domain_append_all_ok ds (ec_domain_create index) rfl]
  simp [ec_domain_create]

/-- A successful finalization binds the domain to a buffer of the planned size. -/
theorem ec_domain_finalize_ok (p : ec_platform_t) (dom D : ec_domain)
    (external_memory : Option (List Nat))
    (h : ec_domain_finalize p dom external_memory = .ok D) :
    ∃ buffer, D = ec_domain_bound dom buffer ∧ buffer.length = dom.data_size := by
  unfold ec_domain_finalize at h
  split at h
  · cases h
  · cases external_memory with
    | none =>
      dsimp only at h
      split at h
      · cases h
        exact ⟨_, rfl, by simp⟩
      · cases h
    | some mem =>
      dsimp only at h
      split at h
      · cases h
      · next hlt =>
        cases h
        exact ⟨_, rfl, by simp; omega⟩

/-- C3: for a new domain to which datagrams with payload sizes s_1, ..., s_n are appended in
that order and which is then finalized: every successful finalization yields a process-data
buffer of size s_1 + ... + s_n; the k-th datagram is bound to the byte range
[s_1 + ... + s_(k-1), s_1 + ... + s_k) of that buffer, the range lies within the buffer, and
the datagram's payload is that part of the buffer; in particular sizes 4, 2, 6 give a buffer
of size 12 with ranges [0,4), [4,6), [6,12). And the finalization does succeed whenever the
memory for the buffer is there (allocation of s_1 + ... + s_n bytes succeeds, or the supplied
memory is at least that large). -/
theorem ec_domain_finalize_layout (p : ec_platform_t) (index : Nat)
    (ds : List ec_datagram_t) (external_memory : Option (List Nat)) :
    (∀ D, ec_domain_configure p index ds external_memory = .ok D →
      D.finalized = true
      ∧ D.process_data.length = (ec_payload_sizes ds).sum
      ∧ (∀ k, k < ds.length →
          ec_domain_range D k = some (ec_size_before ds k, ec_size_before ds (k + 1))
          ∧ ec_size_before ds (k + 1) ≤ D.process_data.length
          ∧ (D.datagrams[k]?).map ec_datagram_t.data
              = some ((D.process_data.take (ec_size_before ds (k + 1))).drop
                  (ec_size_before ds k)))
      ∧ (ec_payload_sizes ds = [4, 2, 6] →
          D.process_data.length = 12
          ∧ ec_domain_range D 0 = some (0, 4)
          ∧ ec_domain_range D 1 = some (4, 6)
          ∧ ec_domain_range D 2 = some (6, 12)))
    ∧ ((external_memory = none → p.can_alloc (ec_payload_sizes ds).sum = true) →
        (∀ mem, external_memory = some mem → (ec_payload_sizes ds).sum ≤ mem.length) →
        ∃ D, ec_domain_configure p index ds external_memory = .ok D) := by
  constructor
  · intro D hD
    rw [ec_domain_configure_eq] at hD
    obtain ⟨buffer, rfl, hlen⟩ := ec_domain_finalize_ok p _ D external_memory hD
    have hlen : buffer.length = (ec_payload_sizes ds).sum := hlen
    have hrange : ∀ k, k < ds.length →
        ec_domain_range (ec_domain_bound { ec_domain_create index with
              datagrams := ds, data_size := (ec_payload_sizes ds).sum } buffer) k
            = some (ec_size_before ds k, ec_size_before ds (k + 1))
        ∧ ec_size_before ds (k + 1) ≤ buffer.length
        ∧ ((ec_domain_bound { ec_domain_create index with
              datagrams := ds, data_size := (ec_payload_sizes ds).sum }
              buffer).datagrams[k]?).map ec_datagram_t.data
            = some ((buffer.take (ec_size_before ds (k + 1))).drop (ec_size_before ds k)) := by
      intro k hk
      have hlay := ec_domain_bound_layout { ec_domain_create index with
          datagrams := ds, data_size := (ec_payload_sizes ds).sum } buffer k (ds[k])
        (List.getElem?_eq_getElem hk)
      refine ⟨hlay.1, ?_, hlay.2⟩
      rw [hlen]
      exact ec_size_before_le ds (k + 1)
    refine ⟨rfl, hlen, hrange, ?_⟩
    intro h426
    have hn : ds.length = 3 := by
      have := congrArg List.length h426
      simpa [ec_payload_sizes] using this
    have h0 := (hrange 0 (by omega)).1
    have h1 := (hrange 1 (by omega)).1
    have h2 := (hrange 2 (by omega)).1
    simp only [ec_size_before, h426] at h0 h1 h2
    refine ⟨?_, h0, h1, h2⟩
    show buffer.length = 12
    rw [hlen, h426]
    rfl
  · intro halloc hmem
    rw [ec_domain_configure_eq]
    cases external_memory with
    | none =>
      simp [ec_domain_finalize, ec_domain_create, halloc rfl]
    | some mem =>
      have hle := hmem mem rfl
      simp [ec_domain_finalize, ec_domain_create, Nat.not_lt.mpr hle]

/-- Witness of C3: the three datagrams of sizes 4, 2, 6, finalized once with an allocated
buffer and once over sixteen bytes of supplied memory: the finalization succeeds, with size
12 and ranges [0,4), [4,6), [6,12) in both; over the supplied memory the buffer is its first
twelve bytes and the second datagram's payload is bytes 4 and 5. -/
theorem ec_domain_finalize_layout_witness :
    (∃ D, ec_domain_configure ec_platform_plenty 0 ec_scenario_datagrams none = .ok D
      ∧ D.process_data.length = 12
      ∧ ec_domain_range D 0 = some (0, 4)
      ∧ ec_domain_range D 1 = some (4, 6)
      ∧ ec_domain_range D 2 = some (6, 12))
    ∧ (∃ D, ec_domain_configure ec_platform_plenty 0 ec_scenario_datagrams
          (some [10, 11, 12, 13, 14, 15, 16, 17, 18, 19, 20, 21, 22, 23, 24, 25]) = .ok D
      ∧ D.process_data = [10, 11, 12, 13, 14, 15, 16, 17, 18, 19, 20, 21]
      ∧ (D.datagrams[1]?).map ec_datagram_t.data = some [14, 15]
      ∧ ec_domain_range D 0 = some (0, 4)
      ∧ ec_domain_range D 1 = some (4, 6)
      ∧ ec_domain_range D 2 = some (6, 12)) :=
  ⟨⟨_, rfl,
      ((ec_domain_finalize_layout ec_platform_plenty 0 ec_scenario_datagrams none).1
        _ rfl).2.2.2 rfl⟩,
   ⟨_, rfl, rfl, rfl,
      (((ec_domain_finalize_layout ec_platform_plenty 0 ec_scenario_datagrams
        (some [10, 11, 12, 13, 14, 15, 16, 17, 18, 19, 20, 21, 22, 23, 24, 25])).1
        _ rfl).2.2.2 rfl).2⟩⟩

/-! ### The foe_read command -/

/-- C6: `execute` takes exactly one argument. For every argument vector whose size is not 1
it ends with the invalid-usage exception with message "'foe_read' takes exactly one
argument!", having asked for no master device, issued no FoE read, printed nothing and
written no file; for every argument vector of size 1 it does not end with an invalid-usage
exception. -/
theorem execute_takes_exactly_one_argument (env : CommandEnv) (args : List String) :
    (args.length ≠ 1 →
      execute env args
        = (⟨[], [], [], []⟩,
            .error (.InvalidUsageException "'foe_read' takes exactly one argument!")))
    ∧ (args.length = 1 →
        ∀ message, (execute env args).2 ≠ .error (.InvalidUsageException message)) := by
  constructor
  · intro h
    unfold execute
    rw [if_pos h]
    rfl
  · intro h message
    unfold execute
    rw [if_neg (by omega)]
    cases env.getSingleMasterIndex with
    | error e => simp
    | ok index =>
      dsimp only
      cases env.open_master index with
      | error e => simp
      | ok u =>
        dsimp only
        cases env.selectedSlaves with
        | error e => simp
        | ok slaves =>
          dsimp only
          match slaves with
          | [] => simp
          | _ :: _ :: _ => simp
          | [slave] =>
            dsimp only
            cases env.readFoe _ with
            | done n b => simp
            | thrown e r c => by_cases hr : r = 0 <;> simp [hr]

/-- Witness of C6: no argument and two arguments end with the exception before anything else
happens; one argument runs through and prints the two bytes read. -/
theorem execute_takes_exactly_one_argument_witness :
    execute (foe_env_example [⟨3⟩] "-") []
        = (⟨[], [], [], []⟩,
            .error (.InvalidUsageException "'foe_read' takes exactly one argument!"))
    ∧ execute (foe_env_example [⟨3⟩] "-") ["a.bin", "b.bin"]
        = (⟨[], [], [], []⟩,
            .error (.InvalidUsageException "'foe_read' takes exactly one argument!"))
    ∧ (∀ message, (execute (foe_env_example [⟨3⟩] "-") ["a.bin"]).2
        ≠ .error (.InvalidUsageException message))
    ∧ (execute (foe_env_example [⟨3⟩] "-") ["a.bin"]).2 = .ok () :=
  ⟨(execute_takes_exactly_one_argument (foe_env_example [⟨3⟩] "-") []).1 (by decide),
   (execute_takes_exactly_one_argument (foe_env_example [⟨3⟩] "-") ["a.bin", "b.bin"]).1
     (by decide),
   (execute_takes_exactly_one_argument (foe_env_example [⟨3⟩] "-") ["a.bin"]).2 rfl,
   rfl⟩

/-- C7: `execute` requires a single selected slave. For every one-argument invocation in
which the master opens and the slave selection yields `slaves`: when the number of selected
slaves is not 1, the run ends with the single-slave-required error carrying that number,
having issued no FoE read, printed nothing and written no file; when exactly one slave is
selected, exactly one FoE read is issued and its `slave_position` is that slave's position. -/
theorem execute_requires_single_slave (env : CommandEnv) (args : List String) (index : Nat)
    (slaves : List ec_ioctl_slave_t)
    (hargs : args.length = 1)
    (hindex : env.getSingleMasterIndex = .ok index)
    (hopen : env.open_master index = .ok ())
    (hslaves : env.selectedSlaves = .ok slaves) :
    (slaves.length ≠ 1 →
      execute env args
        = (⟨[index], [], [], []⟩, .error (.SingleSlaveRequired slaves.length)))
    ∧ (∀ slave, slaves = [slave] →
        ∃ data, (execute env args).1.foe_reads = [data]
          ∧ data.slave_position = slave.position) := by
  constructor
  · intro hlen
    unfold execute
    rw [if_neg (by omega)]
    simp only [hindex, hopen, hslaves]
    match slaves, hlen with
    | [], _ => rfl
    | _ :: _ :: _, _ => rfl
    | [slave], h => exact absurd rfl h
  · intro slave hone
    subst hone
    unfold execute
    rw [if_neg (by omega)]
    simp only [hindex, hopen, hslaves]
    cases env.readFoe _ with
    | done n b => exact ⟨_, rfl, rfl⟩
    | thrown e r c =>
      by_cases hr : r = 0
      · simp only [hr, ne_eq, not_true_eq_false, if_false]
        exact ⟨_, rfl, rfl⟩
      · simp only [ne_eq, hr, not_false_eq_true, if_true]
        exact ⟨_, rfl, rfl⟩

/-- Witness of C7: with no slave and with two slaves selected the run ends with the error
carrying 0 and 2; with the one slave at position 3 selected the FoE read is for position 3. -/
theorem execute_requires_single_slave_witness :
    execute (foe_env_example [] "-") ["a.bin"]
        = (⟨[0], [], [], []⟩, .error (.SingleSlaveRequired 0))
    ∧ execute (foe_env_example [⟨0⟩, ⟨1⟩] "-") ["a.bin"]
        = (⟨[0], [], [], []⟩, .error (.SingleSlaveRequired 2))
    ∧ (∃ data, (execute (foe_env_example [⟨3⟩] "-") ["a.bin"]).1.foe_reads = [data]
        ∧ data.slave_position = 3) :=
  ⟨(execute_requires_single_slave (foe_env_example [] "-") ["a.bin"] 0 [] rfl rfl rfl rfl).1
     (by decide),
   (execute_requires_single_slave (foe_env_example [⟨0⟩, ⟨1⟩] "-") ["a.bin"] 0 [⟨0⟩, ⟨1⟩]
     rfl rfl rfl rfl).1 (by decide),
   (execute_requires_single_slave (foe_env_example [⟨3⟩] "-") ["a.bin"] 0 [⟨3⟩]
     rfl rfl rfl rfl).2 ⟨3⟩ rfl⟩

/-- C5 (the code at the failing input): with `--output-file out.bin`, one slave selected and
a successful FoE read of the two bytes 0x41 0x42, `execute` puts both bytes on standard
output and writes no file. More generally no run writes a file, and the value of
`--output-file` does not change what a run does. -/
theorem execute_output_file_not_honoured :
    execute (foe_env_example [⟨3⟩] "out.bin") ["a.bin"]
        = (⟨[0], [⟨3, 0, 0x8800, ['a', '.', 'b', 'i', 'n']⟩], [0x41, 0x42], []⟩, .ok ())
    ∧ (∀ (env : CommandEnv) (args : List String), (execute env args).1.files = [])
    ∧ (∀ (env : CommandEnv) (args : List String) (file : String),
        execute { env with output_file := file } args = execute env args) := by
  refine ⟨rfl, ?_, fun env args file => rfl⟩
  intro env args
  unfold execute
  split
  · rfl
  · cases env.getSingleMasterIndex with
    | error e => rfl
    | ok index =>
      dsimp only
      cases env.open_master index with
      | error e => rfl
      | ok u =>
        dsimp only
        cases env.selectedSlaves with
        | error e => rfl
        | ok slaves =>
          dsimp only
          match slaves with
          | [] => rfl
          | _ :: _ :: _ => rfl
          | [slave] =>
            dsimp only
            cases env.readFoe _ with
            | done n b => rfl
            | thrown e r c => by_cases hr : r = 0 <;> simp [hr]

end EtherCAT
